import Mathlib

/-!
Shallow embedding of the fast-near view-call engine (src/storage-client.js,
src/json-rpc.js, and the coordinator/HTTP file src/unnamed/part_000) together
with proofs about the embedded operations.

Conventions:
* Byte strings (Buffers / Redis keys and values) are `List Nat`, each entry a
  byte value.  `asciiBytes` turns an ASCII string literal into its bytes.
* The Redis store is modelled as an association list for the plain key space
  (`GET`) plus an association list of sorted sets (`ZREVRANGEBYSCORE`); a
  sorted-set entry is a member (revision hash) paired with its score (block
  height, a `Nat`).
* Promises are modelled by their settled outcome (`Except` of error or value).
-/

/-- Byte strings (the contents of a Node `Buffer`). -/
abbrev Bytes := List Nat

/-- Bytes of an ASCII string literal. -/
def asciiBytes (s : String) : Bytes := s.data.map Char.toNat

/-- The visible state of the Redis store: the plain key/value space (`GET`)
and the sorted sets (`ZREVRANGEBYSCORE`).  A sorted-set member is a revision
hash paired with its score (the block height at which it became current). -/
structure RedisStore where
  kv : List (Bytes × Bytes)
  zsets : List (Bytes × List (Bytes × Nat))

/-- `GET key`: exact-key fetch, `none` when the key is absent. -/
def redisGet (store : RedisStore) (key : Bytes) : Option Bytes :=
  List.lookup key store.kv

/-- The members of the sorted set stored at `key` (empty when absent). -/
def zsetOf (store : RedisStore) (key : Bytes) : List (Bytes × Nat) :=
  (List.lookup key store.zsets).getD []

/-- Byte-wise lexicographic comparison, the order Redis applies to sorted-set
members that share a score. -/
def lexLt : Bytes → Bytes → Bool
  | [], [] => false
  | [], _ :: _ => true
  | _ :: _, [] => false
  | a :: as, b :: bs => if a < b then true else if b < a then false else lexLt as bs

/-- One step of the reverse-range maximum: prefer `m` over the best element
seen so far when `m` has a larger score, or an equal score and a
lexicographically larger member. -/
def zmaxStep (m : Bytes × Nat) : Option (Bytes × Nat) → Option (Bytes × Nat)
  | none => some m
  | some b => if b.2 < m.2 || (b.2 == m.2 && lexLt b.1 m.1) then some m else some b

/-- The first element `ZREVRANGEBYSCORE` would report among `members`:
the member with the greatest score, ties broken towards the
lexicographically greatest member (descending order). -/
def zmax : List (Bytes × Nat) → Option (Bytes × Nat)
  | [] => none
  | m :: rest => zmaxStep m (zmax rest)

/-- `ZREVRANGEBYSCORE key maxScore -inf LIMIT 0 1`: the greatest-scored member
of the sorted set at `key` whose score does not exceed `maxScore`. -/
def zrevrangebyscoreTop (store : RedisStore) (key : Bytes) (maxScore : Nat) : Option Bytes :=
  (zmax ((zsetOf store key).filter (fun m => m.2 ≤ maxScore))).map (fun m => m.1)

theorem zmax_eq_none_iff (l : List (Bytes × Nat)) : zmax l = none ↔ l = [] := by
  cases l with
  | nil => simp [zmax]
  | cons m rest =>
    simp only [zmax]
    constructor
    · intro h
      cases hz : zmax rest with
      | none => rw [hz] at h; simp [zmaxStep] at h
      | some b =>
        rw [hz] at h
        by_cases hc : (b.2 < m.2 || (b.2 == m.2 && lexLt b.1 m.1)) = true <;>
          simp [zmaxStep, hc] at h
    · intro h
      exact absurd h (by simp)

theorem zmax_mem {l : List (Bytes × Nat)} {m : Bytes × Nat} (h : zmax l = some m) :
    m ∈ l := by
  induction l with
  | nil => simp [zmax] at h
  | cons a rest ih =>
    simp only [zmax] at h
    cases hz : zmax rest with
    | none =>
      rw [hz] at h
      simp [zmaxStep] at h
      simp [h]
    | some b =>
      rw [hz] at h
      by_cases hc : (b.2 < a.2 || (b.2 == a.2 && lexLt b.1 a.1)) = true
      · simp [zmaxStep, hc] at h
        simp [h]
      · simp [zmaxStep, hc] at h
        exact List.mem_cons_of_mem a (ih (h ▸ hz))

theorem zmax_score_ge {l : List (Bytes × Nat)} {m : Bytes × Nat} (h : zmax l = some m) :
    ∀ x ∈ l, x.2 ≤ m.2 := by
  induction l generalizing m with
  | nil => simp [zmax] at h
  | cons a rest ih =>
    simp only [zmax] at h
    cases hz : zmax rest with
    | none =>
      rw [hz] at h
      have hrest : rest = [] := (zmax_eq_none_iff rest).mp hz
      subst hrest
      simp [zmaxStep] at h
      intro x hx
      simp at hx
      simp [hx, ← h]
    | some b =>
      rw [hz] at h
      by_cases hc : (b.2 < a.2 || (b.2 == a.2 && lexLt b.1 a.1)) = true
      · simp only [zmaxStep, hc, if_true] at h
        injection h with h
        subst h
        intro x hx
        rcases List.mem_cons.mp hx with rfl | hxr
        · exact Nat.le_refl _
        · have hxb := ih hz x hxr
          simp at hc
          rcases hc with h1 | ⟨h1, _⟩ <;> omega
      · simp only [zmaxStep, hc, if_false, Bool.false_eq_true] at h
        injection h with h
        subst h
        intro x hx
        rcases List.mem_cons.mp hx with rfl | hxr
        · simp at hc
          omega
        · exact ih hz x hxr

theorem zrevTop_eq_none_iff (store : RedisStore) (key : Bytes) (h : Nat) :
    zrevrangebyscoreTop store key h = none ↔ ∀ m ∈ zsetOf store key, ¬ m.2 ≤ h := by
  simp only [zrevrangebyscoreTop, Option.map_eq_none']
  rw [zmax_eq_none_iff, List.filter_eq_nil_iff]
  constructor
  · intro hemp m hm hle
    exact absurd (by simpa using hle) (by simpa using hemp m hm)
  · intro hall m hm
    simpa using hall m hm

theorem zrevTop_eq_some (store : RedisStore) (key : Bytes) (h : Nat) (r : Bytes)
    (hr : zrevrangebyscoreTop store key h = some r) :
    ∃ s, (r, s) ∈ zsetOf store key ∧ s ≤ h ∧ ∀ m ∈ zsetOf store key, m.2 ≤ h → m.2 ≤ s := by
  simp only [zrevrangebyscoreTop, Option.map_eq_some'] at hr
  obtain ⟨⟨r', s⟩, hz, hfst⟩ := hr
  dsimp only at hfst
  subst hfst
  have hmem := zmax_mem hz
  have hge := zmax_score_ge hz
  have hmem' := List.mem_filter.mp hmem
  refine ⟨s, hmem'.1, by simpa using hmem'.2, ?_⟩
  intro m hm hmle
  exact hge m (List.mem_filter.mpr ⟨hm, by simpa using hmle⟩)

/-!
## State resolver (src/storage-client.js)

The underlying (uncached) operations.  The `withRedis` memoization wrapper is
modelled separately below; it returns the settled outcome of the first
invocation for a cache key, so the value-level semantics of each operation is
the function below applied to the store visible at that first invocation.
-/

/-- Key of the sorted set holding a contract's code revisions
(`Buffer.from("code:" + contractId)`). -/
def codeSetKey (contractId : Bytes) : Bytes := asciiBytes "code:" ++ contractId

/-- `getLatestContractBlockHash` (src/storage-client.js lines 58-62):
`ZREVRANGEBYSCORE code:{C} blockHeight -inf LIMIT 0 1`, destructured to its
first element (`undefined`, i.e. `none`, when the reply is empty). -/
def getLatestContractBlockHash (store : RedisStore) (contractId : Bytes) (blockHeight : Nat) :
    Option Bytes :=
  zrevrangebyscoreTop store (codeSetKey contractId) blockHeight

/-- Key fetched by `getContractCode`
(`Buffer.concat([Buffer.from("code:" + contractId + ":"), blockHash])`). -/
def getContractCodeKey (contractId : Bytes) (blockHash : Bytes) : Bytes :=
  (asciiBytes "code:" ++ contractId ++ asciiBytes ":") ++ blockHash

/-- `getContractCode` (src/storage-client.js lines 64-66). -/
def getContractCode (store : RedisStore) (contractId : Bytes) (blockHash : Bytes) :
    Option Bytes :=
  redisGet store (getContractCodeKey contractId blockHash)

/-- Key of the sorted set holding the revisions of one data composite key
(`Buffer.concat([Buffer.from("data:"), compKey])`). -/
def dataSetKey (compKey : Bytes) : Bytes := asciiBytes "data:" ++ compKey

/-- `getLatestDataBlockHash` (src/storage-client.js lines 78-83). -/
def getLatestDataBlockHash (store : RedisStore) (compKey : Bytes) (blockHeight : Nat) :
    Option Bytes :=
  zrevrangebyscoreTop store (dataSetKey compKey) blockHeight

/-- Key fetched by `getData`
(`Buffer.concat([Buffer.from("data-value:"), compKey, Buffer.from(":"), blockHash])`). -/
def getDataKey (compKey : Bytes) (blockHash : Bytes) : Bytes :=
  asciiBytes "data-value:" ++ compKey ++ asciiBytes ":" ++ blockHash

/-- `getData` (src/storage-client.js lines 85-88). -/
def getData (store : RedisStore) (compKey : Bytes) (blockHash : Bytes) : Option Bytes :=
  redisGet store (getDataKey compKey blockHash)

/-- The spec's description of the code-blob key: literal bytes `code:` then the
raw contract bytes, a literal colon byte 0x3A, and the raw revision hash, with
no length prefixes (spec section 6). -/
def specCodeBlobKey (c r : Bytes) : Bytes :=
  [99, 111, 100, 101, 58] ++ c ++ [58] ++ r

/-- The spec's description of the data-value key: literal bytes `data-value:`
then the raw composite key bytes, a literal colon byte 0x3A, and the raw
revision hash, with no length prefixes (spec section 6). -/
def specDataValueKey (k r : Bytes) : Bytes :=
  [100, 97, 116, 97, 45, 118, 97, 108, 117, 101, 58] ++ k ++ [58] ++ r

theorem asciiBytes_code : asciiBytes "code:" = [99, 111, 100, 101, 58] := by decide

theorem asciiBytes_colon : asciiBytes ":" = [58] := by decide

theorem asciiBytes_dataValue :
    asciiBytes "data-value:" = [100, 97, 116, 97, 45, 118, 97, 108, 117, 101, 58] := by decide

/-- C6: payload fetches build bit-exact keys by raw byte concatenation with
literal 0x3A colon delimiters and no length prefixes: `getContractCode`
fetches exactly `code:` ‖ C ‖ `:` ‖ R and `getData` fetches exactly
`data-value:` ‖ compKey ‖ `:` ‖ R, for arbitrary (possibly non-UTF-8) bytes. -/
theorem payload_keys_bit_exact (c r k : Bytes) :
    getContractCode = (fun store c r => redisGet store (specCodeBlobKey c r)) ∧
    getContractCodeKey c r = specCodeBlobKey c r ∧
    getData = (fun store k r => redisGet store (specDataValueKey k r)) ∧
    getDataKey k r = specDataValueKey k r := by
  have hck : ∀ c r : Bytes, getContractCodeKey c r = specCodeBlobKey c r := by
    intro c r
    simp [getContractCodeKey, specCodeBlobKey, asciiBytes_code, asciiBytes_colon]
  have hdk : ∀ k r : Bytes, getDataKey k r = specDataValueKey k r := by
    intro k r
    simp [getDataKey, specDataValueKey, asciiBytes_dataValue, asciiBytes_colon]
  refine ⟨?_, hck c r, ?_, hdk k r⟩
  · funext store c r
    simp [getContractCode, hck]
  · funext store k r
    simp [getData, hdk]

/-- C2: `getLatestContractBlockHash` returns the member of the ordered set
`code:{C}` with the greatest score not exceeding H, and `none` exactly when no
member has score ≤ H. -/
theorem getLatestContractBlockHash_correct (store : RedisStore) (c : Bytes) (h : Nat) :
    (getLatestContractBlockHash store c h = none ↔
      ∀ m ∈ zsetOf store (codeSetKey c), ¬ m.2 ≤ h) ∧
    (∀ r, getLatestContractBlockHash store c h = some r →
      ∃ s, (r, s) ∈ zsetOf store (codeSetKey c) ∧ s ≤ h ∧
        ∀ m ∈ zsetOf store (codeSetKey c), m.2 ≤ h → m.2 ≤ s) := by
  constructor
  · exact zrevTop_eq_none_iff store (codeSetKey c) h
  · intro r hr
    exact zrevTop_eq_some store (codeSetKey c) h r hr

/-- Store with two code revisions for contract `app`, used to witness the
revision-resolution theorem. -/
def c2Store : RedisStore :=
  ⟨[], [(codeSetKey (asciiBytes "app"), [(asciiBytes "r1", 10), (asciiBytes "r2", 50)])]⟩

/-- Witness for C2 at a concrete store: at height 100 the revision with the
greatest score ≤ 100 is `r2` (score 50). -/
theorem getLatestContractBlockHash_correct_witness :
    ∃ s, (asciiBytes "r2", s) ∈ zsetOf c2Store (codeSetKey (asciiBytes "app")) ∧ s ≤ 100 ∧
      ∀ m ∈ zsetOf c2Store (codeSetKey (asciiBytes "app")), m.2 ≤ 100 → m.2 ≤ s :=
  (getLatestContractBlockHash_correct c2Store (asciiBytes "app") 100).2
    (asciiBytes "r2") (by decide)

/-!
## The `withRedis` memoization wrapper (src/storage-client.js lines 32-52)

`withRedis` renders every argument to a display string (`prettyBuffer` for
buffers, template interpolation otherwise), joins `name` and the rendered
arguments with `$$` into a cache key, and consults a module-level LRU
(`redisCache`, created once at the top of the file and shared by every request
in the process).  On a hit it returns the cached promise; on a miss it starts
the underlying store call, inserts the still-pending promise into the cache
(line 47) before awaiting it (line 48), and returns it.  The third argument of
`redisCache.set` is `cachedExpires && BLOCK_INDEX_CACHE_TIME`, so entries of
operations in `cacheExpiresList` (only `getLatestBlockHeight`) carry a 500 ms
max age and every other entry has no age bound.

Model: a promise is its settled outcome `Except String Bytes`; the underlying
store call of one invocation is a parameter (its settled outcome), time is an
explicit `Nat` of milliseconds, and an invocation returns
(outcome, new cache state, whether the store was contacted).  The invocation
also carries a `requestId`, the identity of the view call on whose behalf the
lookup runs; mirroring the source, the cache key is built from the operation
name and rendered arguments only, never from `requestId`.
-/

/-- A settled promise: resolved with bytes or rejected with an error. -/
abbrev Outcome := Except String Bytes

/-- An entry of the module-level LRU: the cached promise, the time it was
stored, and its max age (set only for `cacheExpires` operations). -/
structure CacheEntry where
  value : Outcome
  storedAt : Nat
  maxAge : Option Nat

/-- The process-wide state: the single module-level `redisCache`. -/
structure ProcState where
  cache : List (String × CacheEntry)

/-- `BLOCK_INDEX_CACHE_TIME` (src/storage-client.js line 11). -/
def BLOCK_INDEX_CACHE_TIME : Nat := 500

/-- `redisCache.get` at time `now`: an entry is returned while present and not
stale; an lru-cache entry with max age `ma` is stale once `now - storedAt`
exceeds `ma`. -/
def cacheGet (st : ProcState) (key : String) (now : Nat) : Option Outcome :=
  match List.lookup key st.cache with
  | none => none
  | some e =>
    match e.maxAge with
    | none => some e.value
    | some ma => if now - e.storedAt ≤ ma then some e.value else none

/-- `redisCache.set key value maxAge` at time `now`. -/
def cacheSet (st : ProcState) (key : String) (v : Outcome) (now : Nat) (maxAge : Option Nat) :
    ProcState :=
  ⟨(key, ⟨v, now, maxAge⟩) :: st.cache⟩

/-- The cache key of `withRedis` (line 36): operation name and rendered
arguments joined with the `$$` separator.  No request identity enters the key. -/
def withRedisCacheKey (name : String) (prettyArgs : List String) : String :=
  String.intercalate "$$" (name :: prettyArgs)

/-- One invocation of a `withRedis`-wrapped operation, on behalf of view call
`requestId`, at time `now`.  `storeResult` is the settled outcome the
underlying store call would produce if it ran.  Returns the invocation's
outcome, the new process state, and whether the store was contacted.
`requestId` is unused on the right-hand side exactly because the source keys
its cache only by name and arguments. -/
def withRedisCall (requestId : Nat) (name : String) (cachedExpires : Bool)
    (prettyArgs : List String) (storeResult : Outcome) (now : Nat) (st : ProcState) :
    Outcome × ProcState × Bool :=
  let cacheKey := withRedisCacheKey name prettyArgs
  match cacheGet st cacheKey now with
  | some v => (v, st, false)
  | none =>
    let maxAge := if cachedExpires then some BLOCK_INDEX_CACHE_TIME else none
    (storeResult, cacheSet st cacheKey storeResult now maxAge, true)

/-- `cacheExpiresList` contains only `getLatestBlockHeight`
(src/storage-client.js line 118): the names of the wrapped operations paired
with their `cachedExpires` flag, as computed by the module export loop. -/
def storageClientOps : List (String × Bool) :=
  [("getLatestBlockHeight", true),
   ("getLatestContractBlockHash", false),
   ("getContractCode", false),
   ("getLatestAccountBlockHash", false),
   ("getAccountData", false),
   ("getLatestDataBlockHash", false),
   ("getData", false),
   ("scanDataKeys", false)]

theorem cacheGet_cacheSet_same (st : ProcState) (key : String) (v : Outcome)
    (t now : Nat) (ma : Option Nat) :
    cacheGet (cacheSet st key v t ma) key now =
      match ma with
      | none => some v
      | some a => if now - t ≤ a then some v else none := by
  cases ma <;> simp [cacheGet, cacheSet, List.lookup]

/-- C3 (amended): memoization in `withRedis` is process-wide, not
request-scoped.  A result cached by one view call is returned, without
contacting the store, to any later invocation with the same operation and
rendered arguments — whatever view call it belongs to — as long as the entry
is fresh; entries of `cachedExpires` operations (only `latest_block_height`)
go stale once more than `BLOCK_INDEX_CACHE_TIME` (500 ms) has passed, and all
other entries never go stale (they leave only by LRU eviction, not modelled). -/
theorem memo_process_wide (req1 req2 : Nat) (name : String) (ce : Bool) (args : List String)
    (o o' : Outcome) (t1 t2 : Nat) (st : ProcState)
    (hmiss : cacheGet st (withRedisCacheKey name args) t1 = none) :
    (withRedisCall req1 name ce args o t1 st).1 = o ∧
    (withRedisCall req1 name ce args o t1 st).2.2 = true ∧
    ((ce = false ∨ t2 - t1 ≤ BLOCK_INDEX_CACHE_TIME) →
      withRedisCall req2 name ce args o' t2 (withRedisCall req1 name ce args o t1 st).2.1 =
        (o, (withRedisCall req1 name ce args o t1 st).2.1, false)) ∧
    (ce = true → BLOCK_INDEX_CACHE_TIME < t2 - t1 →
      (withRedisCall req2 name ce args o' t2 (withRedisCall req1 name ce args o t1 st).2.1).2.2 =
        true) := by
  have h1 : withRedisCall req1 name ce args o t1 st =
      (o, cacheSet st (withRedisCacheKey name args) o t1
            (if ce then some BLOCK_INDEX_CACHE_TIME else none), true) := by
    simp [withRedisCall, hmiss]
  refine ⟨by rw [h1], by rw [h1], ?_, ?_⟩
  · intro hfresh
    rw [h1]
    cases ce with
    | false =>
      simp only [if_neg (by simp : ¬ (false = true))]
      simp [withRedisCall, cacheGet_cacheSet_same]
    | true =>
      rcases hfresh with hfalse | hle
      · exact absurd hfalse (by simp)
      · simp only [if_pos rfl]
        simp [withRedisCall, cacheGet_cacheSet_same, hle]
  · intro hce hstale
    subst hce
    rw [h1]
    simp only [if_pos rfl]
    have : ¬ t2 - t1 ≤ BLOCK_INDEX_CACHE_TIME := by omega
    simp [withRedisCall, cacheGet_cacheSet_same, this]

/-- Closed witness for the amended C3 theorem: a `getContractCode` result
cached at time 0 on behalf of view call 1 is served from the cache, without a
store contact, to view call 2 at time 1000000. -/
theorem memo_process_wide_witness :
    (withRedisCall 1 "getContractCode" false ["app", "beef"] (Except.ok [0, 97]) 0 ⟨[]⟩).1 =
      Except.ok [0, 97] ∧
    (withRedisCall 1 "getContractCode" false ["app", "beef"] (Except.ok [0, 97]) 0 ⟨[]⟩).2.2 =
      true ∧
    ((false = false ∨ 1000000 - 0 ≤ BLOCK_INDEX_CACHE_TIME) →
      withRedisCall 2 "getContractCode" false ["app", "beef"] (Except.ok [9]) 1000000
          (withRedisCall 1 "getContractCode" false ["app", "beef"] (Except.ok [0, 97]) 0 ⟨[]⟩).2.1 =
        (Except.ok [0, 97],
          (withRedisCall 1 "getContractCode" false ["app", "beef"] (Except.ok [0, 97]) 0 ⟨[]⟩).2.1,
          false)) ∧
    (false = true → BLOCK_INDEX_CACHE_TIME < 1000000 - 0 →
      (withRedisCall 2 "getContractCode" false ["app", "beef"] (Except.ok [9]) 1000000
          (withRedisCall 1 "getContractCode" false ["app", "beef"] (Except.ok [0, 97]) 0 ⟨[]⟩).2.1).2.2 =
        true) :=
  memo_process_wide 1 2 "getContractCode" false ["app", "beef"]
    (Except.ok [0, 97]) (Except.ok [9]) 0 1000000 ⟨[]⟩ rfl

/-- The process state after view call 1 performs a `getContractCode` lookup at
time 0 (a cache miss that stores the settled result in the module-level LRU). -/
def crossCallState : ProcState :=
  (withRedisCall 1 "getContractCode" false ["app", "beef"] (Except.ok [0, 97]) 0 ⟨[]⟩).2.1

/-- Counterexample to C3 as stated: the `getContractCode` result cached during
view call 1 (at time 0) is returned to view call 2 a thousand seconds later
without contacting the store — the cached result is visible far outside the
single view call that created it, for an operation other than
`latest_block_height`. -/
theorem memo_not_request_scoped_cx :
    (withRedisCall 2 "getContractCode" false ["app", "beef"] (Except.ok [9]) 1000000
        crossCallState).1 = Except.ok [0, 97] ∧
    (withRedisCall 2 "getContractCode" false ["app", "beef"] (Except.ok [9]) 1000000
        crossCallState).2.2 = false := by
  exact ⟨rfl, rfl⟩

/-- C10: when the underlying store call of a `withRedis`-wrapped operation
fails, the rejected promise is inserted in the process-wide cache (before the
failure propagates, line 47 vs line 48 of src/storage-client.js), so while the
entry stays cached every later invocation with the same operation and
arguments rejects with the same error without contacting the store — the
store call is never retried. -/
theorem withRedis_failure_cached (req1 req2 : Nat) (name : String) (ce : Bool)
    (args : List String) (e : String) (o' : Outcome) (t1 t2 : Nat) (st : ProcState)
    (hmiss : cacheGet st (withRedisCacheKey name args) t1 = none)
    (hfresh : ce = true → t2 - t1 ≤ BLOCK_INDEX_CACHE_TIME) :
    (withRedisCall req1 name ce args (Except.error e) t1 st).1 = Except.error e ∧
    cacheGet (withRedisCall req1 name ce args (Except.error e) t1 st).2.1
        (withRedisCacheKey name args) t1 = some (Except.error e) ∧
    withRedisCall req2 name ce args o' t2
        (withRedisCall req1 name ce args (Except.error e) t1 st).2.1 =
      (Except.error e, (withRedisCall req1 name ce args (Except.error e) t1 st).2.1, false) := by
  have h := memo_process_wide req1 req2 name ce args (Except.error e) o' t1 t2 st hmiss
  refine ⟨h.1, ?_, ?_⟩
  · have h1 : withRedisCall req1 name ce args (Except.error e) t1 st =
        (Except.error e, cacheSet st (withRedisCacheKey name args) (Except.error e) t1
              (if ce then some BLOCK_INDEX_CACHE_TIME else none), true) := by
      simp [withRedisCall, hmiss]
    rw [h1]
    cases ce with
    | false => simp [cacheGet_cacheSet_same]
    | true => simp [cacheGet_cacheSet_same]
  · refine h.2.2.1 ?_
    cases ce with
    | false => exact Or.inl rfl
    | true => exact Or.inr (hfresh rfl)

/-- Closed witness for C10: a failed `getData` store call at time 0 is cached;
a second invocation at time 50, offered a would-be successful store result,
still rejects with the original error and does not contact the store. -/
theorem withRedis_failure_cached_witness :
    (withRedisCall 1 "getData" false ["k1", "h1"] (Except.error "ECONNREFUSED") 0 ⟨[]⟩).1 =
      Except.error "ECONNREFUSED" ∧
    cacheGet (withRedisCall 1 "getData" false ["k1", "h1"] (Except.error "ECONNREFUSED") 0
          ⟨[]⟩).2.1 (withRedisCacheKey "getData" ["k1", "h1"]) 0 =
      some (Except.error "ECONNREFUSED") ∧
    withRedisCall 2 "getData" false ["k1", "h1"] (Except.ok [1]) 50
        (withRedisCall 1 "getData" false ["k1", "h1"] (Except.error "ECONNREFUSED") 0 ⟨[]⟩).2.1 =
      (Except.error "ECONNREFUSED",
        (withRedisCall 1 "getData" false ["k1", "h1"] (Except.error "ECONNREFUSED") 0 ⟨[]⟩).2.1,
        false) :=
  withRedis_failure_cached 1 2 "getData" false ["k1", "h1"] "ECONNREFUSED"
    (Except.ok [1]) 0 50 ⟨[]⟩ rfl (by intro h; exact absurd h (by simp))

/-!
## `scanDataKeys` (src/storage-client.js lines 90-105)

`SCAN iterator MATCH data:{C}:{pattern} COUNT limit` is an external-service
call; its reply — the new cursor and the batch of keys of the global keyspace
that match the pattern — enters the model as a parameter.  Every key the
`MATCH` clause can return starts with the bytes `data:` followed by the
contract id and a colon.
-/

/-- The body of the `keys.map` callback in `scanDataKeys`: strip the 5
`data:` bytes to get the composite key, strip `contractId.length + 1` further
bytes to get the storage key, resolve the latest revision ≤ H of the composite
key, and pair the storage key with the revision's payload (`null` when no
revision qualifies). -/
def processScannedKey (store : RedisStore) (contractId : Bytes) (blockHeight : Nat)
    (key : Bytes) : Bytes × Option Bytes :=
  let compKey := key.drop 5
  let storageKey := compKey.drop (contractId.length + 1)
  match getLatestDataBlockHash store compKey blockHeight with
  | none => (storageKey, none)
  | some blockHash => (storageKey, getData store compKey blockHash)

/-- The value `scanDataKeys` resolves with: the new scan cursor and the
processed key/value pairs. -/
structure ScanDataResult where
  iterator : Bytes
  data : List (Bytes × Option Bytes)

/-- `scanDataKeys` (src/storage-client.js lines 90-105) applied to the reply
`(newIterator, keys)` of the `SCAN` call. -/
def scanDataKeys (store : RedisStore) (contractId : Bytes) (blockHeight : Nat)
    (newIterator : Bytes) (keys : List Bytes) : ScanDataResult :=
  ⟨newIterator, keys.map (processScannedKey store contractId blockHeight)⟩

theorem drop_five_data_prefix (rest : Bytes) :
    (asciiBytes "data:" ++ rest).drop 5 = rest := by
  have h : (asciiBytes "data:").length = 5 := by decide
  rw [← h, List.drop_left]

theorem drop_contract_prefix (c sk : Bytes) :
    (c ++ [58] ++ sk).drop (c.length + 1) = sk := by
  have h : (c ++ [58]).length = c.length + 1 := by simp
  rw [← h, List.drop_left]

theorem processScannedKey_eq (store : RedisStore) (c : Bytes) (h : Nat) (sk : Bytes) :
    processScannedKey store c h (asciiBytes "data:" ++ (c ++ [58] ++ sk)) =
      (sk, match getLatestDataBlockHash store (c ++ [58] ++ sk) h with
           | none => none
           | some bh => getData store (c ++ [58] ++ sk) bh) := by
  simp only [processScannedKey, drop_five_data_prefix, drop_contract_prefix]
  cases getLatestDataBlockHash store (c ++ [58] ++ sk) h <;> rfl

/-- C5: for every key of a `scanDataKeys` batch (each such key has the shape
`data:` ‖ C ‖ `:` ‖ sk because of the `MATCH data:{C}:{pattern}` clause), the
reported storage key is the stored key bytes with the leading `data:` prefix
and the following contract prefix `C:` removed, and the paired value is the
payload of the greatest revision of that key with score ≤ H, or `none` when no
revision has score ≤ H. -/
theorem scanDataKeys_correct (store : RedisStore) (c : Bytes) (h : Nat)
    (cursor : Bytes) (keys : List Bytes) (sk : Bytes)
    (hmem : asciiBytes "data:" ++ (c ++ [58] ++ sk) ∈ keys) :
    processScannedKey store c h (asciiBytes "data:" ++ (c ++ [58] ++ sk)) ∈
      (scanDataKeys store c h cursor keys).data ∧
    (processScannedKey store c h (asciiBytes "data:" ++ (c ++ [58] ++ sk))).1 = sk ∧
    ((∀ m ∈ zsetOf store (dataSetKey (c ++ [58] ++ sk)), ¬ m.2 ≤ h) →
      (processScannedKey store c h (asciiBytes "data:" ++ (c ++ [58] ++ sk))).2 = none) ∧
    (∀ r, getLatestDataBlockHash store (c ++ [58] ++ sk) h = some r →
      (∃ s, (r, s) ∈ zsetOf store (dataSetKey (c ++ [58] ++ sk)) ∧ s ≤ h ∧
        ∀ m ∈ zsetOf store (dataSetKey (c ++ [58] ++ sk)), m.2 ≤ h → m.2 ≤ s) ∧
      (processScannedKey store c h (asciiBytes "data:" ++ (c ++ [58] ++ sk))).2 =
        getData store (c ++ [58] ++ sk) r) := by
  refine ⟨List.mem_map_of_mem _ hmem, ?_, ?_, ?_⟩
  · rw [processScannedKey_eq]
  · intro hnone
    have hz : getLatestDataBlockHash store (c ++ [58] ++ sk) h = none :=
      (zrevTop_eq_none_iff store (dataSetKey (c ++ [58] ++ sk)) h).mpr hnone
    rw [processScannedKey_eq, hz]
  · intro r hr
    refine ⟨zrevTop_eq_some store (dataSetKey (c ++ [58] ++ sk)) h r hr, ?_⟩
    rw [processScannedKey_eq, hr]

/-- Store for the C5 witness: contract `app`, storage key `k`, one revision
`rA` at height 40 whose payload is `v1`. -/
def c5Store : RedisStore :=
  ⟨[(getDataKey (asciiBytes "app" ++ [58] ++ asciiBytes "k") (asciiBytes "rA"), asciiBytes "v1")],
   [(dataSetKey (asciiBytes "app" ++ [58] ++ asciiBytes "k"), [(asciiBytes "rA", 40)])]⟩

/-- Closed witness for C5 at `c5Store`, height 100, a scan batch holding the
single matching key `data:app:k`. -/
theorem scanDataKeys_correct_witness :
    processScannedKey c5Store (asciiBytes "app") 100
        (asciiBytes "data:" ++ (asciiBytes "app" ++ [58] ++ asciiBytes "k")) ∈
      (scanDataKeys c5Store (asciiBytes "app") 100 (asciiBytes "0")
        [asciiBytes "data:" ++ (asciiBytes "app" ++ [58] ++ asciiBytes "k")]).data ∧
    (processScannedKey c5Store (asciiBytes "app") 100
        (asciiBytes "data:" ++ (asciiBytes "app" ++ [58] ++ asciiBytes "k"))).1 =
      asciiBytes "k" ∧
    ((∀ m ∈ zsetOf c5Store (dataSetKey (asciiBytes "app" ++ [58] ++ asciiBytes "k")),
        ¬ m.2 ≤ 100) →
      (processScannedKey c5Store (asciiBytes "app") 100
        (asciiBytes "data:" ++ (asciiBytes "app" ++ [58] ++ asciiBytes "k"))).2 = none) ∧
    (∀ r, getLatestDataBlockHash c5Store (asciiBytes "app" ++ [58] ++ asciiBytes "k") 100 =
        some r →
      (∃ s, (r, s) ∈ zsetOf c5Store (dataSetKey (asciiBytes "app" ++ [58] ++ asciiBytes "k")) ∧
        s ≤ 100 ∧
        ∀ m ∈ zsetOf c5Store (dataSetKey (asciiBytes "app" ++ [58] ++ asciiBytes "k")),
          m.2 ≤ 100 → m.2 ≤ s) ∧
      (processScannedKey c5Store (asciiBytes "app") 100
          (asciiBytes "data:" ++ (asciiBytes "app" ++ [58] ++ asciiBytes "k"))).2 =
        getData c5Store (asciiBytes "app" ++ [58] ++ asciiBytes "k") r) :=
  scanDataKeys_correct c5Store (asciiBytes "app") 100 (asciiBytes "0")
    [asciiBytes "data:" ++ (asciiBytes "app" ++ [58] ++ asciiBytes "k")] (asciiBytes "k")
    (by simp)

/-!
## Module cache of the coordinator (src/unnamed/part_000 lines 18, 52-68)

`runContract` computes a cache key from the contract id and the hex rendering
of the code revision hash (with the stray trailing brace of the source,
line 53), reads the ambient object `contractCache`, and — on a miss — awaits
the code fetch and `WebAssembly.compile` before storing the module.  Because
the entry is written only after compilation completes, the check and the
write are separated by suspension points.

Model: each in-flight `runContract` call is a task with a key and a phase
(0 = about to check the cache; 1 = observed a miss, about to fetch, compile
and write; 2 = done).  A schedule interleaves task steps; phase 0 → 1 and
phase 1 → 2 are separated exactly because the source awaits between the cache
check and the cache write.  `compiles` counts executions of
`WebAssembly.compile`.
-/

/-- Lower-case hex digit (`Buffer.toString("hex")` alphabet). -/
def hexDigit (n : Nat) : Char :=
  if n < 10 then Char.ofNat (48 + n) else Char.ofNat (87 + n)

/-- `blockHash.toString("hex")`. -/
def hexOfBytes (bs : Bytes) : String :=
  String.mk (bs.foldr (fun b acc => hexDigit (b / 16) :: hexDigit (b % 16) :: acc) [])

/-- The module-cache key of `runContract` (src/unnamed/part_000 line 53):
the contract id, a colon, the hex rendering of the revision hash, and the
stray closing-brace byte of the source template. -/
def contractCacheKey (contractId : String) (blockHash : Bytes) : String :=
  contractId ++ ":" ++ hexOfBytes blockHash ++ "\x7d"

/-- One in-flight `runContract` call, reduced to its module-cache interaction:
its cache key and its phase. -/
structure CCTask where
  key : String
  phase : Nat

/-- The coordinator process: the in-flight calls, the ambient `contractCache`
(the set of keys that hold a compiled module), and the number of compilations
run so far. -/
structure CCSys where
  tasks : List CCTask
  cache : List String
  compiles : Nat

/-- Run one step of task `i`: a phase-0 task checks `contractCache` (hit →
done, miss → proceeds towards compilation); a phase-1 task compiles and
writes its entry; a finished task does nothing. -/
def ccStep (sys : CCSys) (i : Nat) : CCSys :=
  match sys.tasks[i]? with
  | none => sys
  | some t =>
    if t.phase = 0 then
      if sys.cache.contains t.key then
        { sys with tasks := sys.tasks.set i { t with phase := 2 } }
      else
        { sys with tasks := sys.tasks.set i { t with phase := 1 } }
    else if t.phase = 1 then
      { tasks := sys.tasks.set i { t with phase := 2 },
        cache := t.key :: sys.cache,
        compiles := sys.compiles + 1 }
    else sys

/-- Run a schedule (a list of task indices) from a system state. -/
def ccRun (sys : CCSys) (sched : List Nat) : CCSys :=
  sched.foldl ccStep sys

/-- The initial state for one cache key per call, with a cold cache. -/
def ccInit (keys : List String) : CCSys :=
  ⟨keys.map (fun k => ⟨k, 0⟩), [], 0⟩

/-- Counterexample to C4 as stated: two concurrent `runContract` calls for the
same (contract, revision) key, interleaved so that both check the cache before
either write lands (the interleaving the awaits at lines 61 and 65 permit),
compile twice — not at most once. -/
theorem contractCache_double_compile_cx :
    (ccRun (ccInit [contractCacheKey "app" [171], contractCacheKey "app" [171]])
      [0, 1, 0, 1]).compiles = 2 := by
  rfl

/-- C4 (amended): sequential consultations of the module cache compile at most
once per key — a second call for the same key after the first finished hits
the cache and does not recompile, while different keys compile independently
(once each).  Concurrent misses for the same key, however, can each run the
compilation, because the entry is stored only after compilation completes. -/
theorem contractCache_sequential_single_compile (k1 k2 : String) :
    (ccRun (ccInit [k1, k2]) [0, 0, 1, 1]).compiles = (if k2 = k1 then 1 else 2) ∧
    (ccRun (ccInit [k1, k1]) [0, 1, 0, 1]).compiles = 2 := by
  constructor
  · by_cases h : k2 = k1
    · subst h
      simp [ccRun, ccInit, ccStep, List.foldl]
    · have hbeq : (k1 == k2) = false := by
        simp only [beq_eq_false_iff_ne, ne_eq]
        exact fun he => h he.symm
      simp [ccRun, ccInit, ccStep, List.foldl, hbeq, h]
  · simp [ccRun, ccInit, ccStep, List.foldl]

/-!
## Account record codec (src/json-rpc.js lines 7-28, 195)

`BORSH_SCHEMA` declares the account struct as `amount : u128`,
`locked : u128`, `code_hash : [u8; 32]`, `storage_usage : u64`; borsh lays a
struct out as the concatenation of its fields, unsigned integers little-endian
and fixed byte arrays raw, so the record is the 72-byte layout
`amount (16 LE) ‖ locked (16 LE) ‖ code_hash (32) ‖ storage_usage (8 LE)`.
`deserialize` consumes the fields in order and demands the buffer be fully
consumed, hence exactly 72 bytes long.
-/

/-- The account record of src/json-rpc.js. -/
structure Account where
  amount : Nat
  locked : Nat
  code_hash : Bytes
  storage_usage : Nat
deriving DecidableEq

/-- Little-endian encoding of `n` on `w` bytes (borsh unsigned integers). -/
def leBytes : Nat → Nat → Bytes
  | 0, _ => []
  | w + 1, n => n % 256 :: leBytes w (n / 256)

/-- Little-endian value of a byte string. -/
def leDecode (bs : Bytes) : Nat :=
  bs.foldr (fun b acc => b + 256 * acc) 0

/-- Borsh serialization of an account under `BORSH_SCHEMA`. -/
def serializeAccount (acc : Account) : Bytes :=
  leBytes 16 acc.amount ++ leBytes 16 acc.locked ++ acc.code_hash ++
    leBytes 8 acc.storage_usage

/-- Borsh deserialization of an account under `BORSH_SCHEMA`: bytes 0-15 are
the little-endian `amount`, bytes 16-31 the little-endian `locked`, bytes
32-63 the raw `code_hash`, bytes 64-71 the little-endian `storage_usage`;
any buffer that is not exactly 72 bytes is rejected. -/
def deserializeAccount (bs : Bytes) : Option Account :=
  if bs.length = 72 then
    some ⟨leDecode (bs.take 16), leDecode ((bs.drop 16).take 16),
          (bs.drop 32).take 32, leDecode (bs.drop 64)⟩
  else none

theorem leBytes_length (w n : Nat) : (leBytes w n).length = w := by
  induction w generalizing n with
  | zero => rfl
  | succ w ih => simp [leBytes, ih]

theorem leDecode_leBytes (w n : Nat) : leDecode (leBytes w n) = n % 256 ^ w := by
  induction w generalizing n with
  | zero => simp [leBytes, leDecode, Nat.mod_one]
  | succ w ih =>
    have hstep : (256 : Nat) ^ (w + 1) = 256 * 256 ^ w := by ring
    rw [leBytes, leDecode, List.foldr_cons, hstep, Nat.mod_mul]
    have : List.foldr (fun b acc => b + 256 * acc) 0 (leBytes w (n / 256)) =
        n / 256 % 256 ^ w := ih (n / 256)
    rw [this]

theorem take_len_append {k : Nat} (l₁ l₂ : Bytes) (h : l₁.length = k) :
    (l₁ ++ l₂).take k = l₁ := by
  subst h
  exact List.take_left l₁ l₂

theorem drop_len_append {k : Nat} (l₁ l₂ : Bytes) (h : l₁.length = k) :
    (l₁ ++ l₂).drop k = l₂ := by
  subst h
  exact List.drop_left l₁ l₂

/-- C7: the account codec places `amount` in bytes 0-15 (little-endian u128),
`locked` in bytes 16-31 (little-endian u128), `code_hash` in bytes 32-63 and
`storage_usage` in bytes 64-71 (little-endian u64) of the 72-byte record, and
encode-then-decode round-trips for every in-range field assignment — in
particular for every combination of the boundary values 0, 1, 2^63 - 1,
2^64 - 1 (u64) and 0, 2^127, 2^128 - 1 (u128). -/
theorem accountCodec_roundtrip (acc : Account)
    (ha : acc.amount < 2 ^ 128) (hl : acc.locked < 2 ^ 128)
    (hch : acc.code_hash.length = 32) (hsu : acc.storage_usage < 2 ^ 64) :
    deserializeAccount (serializeAccount acc) = some acc ∧
    (serializeAccount acc).length = 72 ∧
    (serializeAccount acc).take 16 = leBytes 16 acc.amount ∧
    ((serializeAccount acc).drop 16).take 16 = leBytes 16 acc.locked ∧
    ((serializeAccount acc).drop 32).take 32 = acc.code_hash ∧
    (serializeAccount acc).drop 64 = leBytes 8 acc.storage_usage := by
  have h256_128 : (256 : Nat) ^ 16 = 2 ^ 128 := by norm_num
  have h256_64 : (256 : Nat) ^ 8 = 2 ^ 64 := by norm_num
  have hma : acc.amount % 256 ^ 16 = acc.amount := Nat.mod_eq_of_lt (h256_128 ▸ ha)
  have hml : acc.locked % 256 ^ 16 = acc.locked := Nat.mod_eq_of_lt (h256_128 ▸ hl)
  have hms : acc.storage_usage % 256 ^ 8 = acc.storage_usage :=
    Nat.mod_eq_of_lt (h256_64 ▸ hsu)
  have hlen : (serializeAccount acc).length = 72 := by
    simp [serializeAccount, leBytes_length, hch]
  have htake16 : (serializeAccount acc).take 16 = leBytes 16 acc.amount := by
    rw [serializeAccount, List.append_assoc, List.append_assoc]
    exact take_len_append _ _ (leBytes_length 16 acc.amount)
  have hdrop16 : (serializeAccount acc).drop 16 =
      leBytes 16 acc.locked ++ (acc.code_hash ++ leBytes 8 acc.storage_usage) := by
    rw [serializeAccount, List.append_assoc, List.append_assoc]
    exact drop_len_append _ _ (leBytes_length 16 acc.amount)
  have htake32 : ((serializeAccount acc).drop 16).take 16 = leBytes 16 acc.locked := by
    rw [hdrop16]
    exact take_len_append _ _ (leBytes_length 16 acc.locked)
  have hdrop32 : (serializeAccount acc).drop 32 =
      acc.code_hash ++ leBytes 8 acc.storage_usage := by
    have h32 : (32 : Nat) = 16 + 16 := by norm_num
    rw [h32, ← List.drop_drop, hdrop16]
    exact drop_len_append _ _ (leBytes_length 16 acc.locked)
  have htakech : ((serializeAccount acc).drop 32).take 32 = acc.code_hash := by
    rw [hdrop32]
    exact take_len_append _ _ hch
  have hdrop64 : (serializeAccount acc).drop 64 = leBytes 8 acc.storage_usage := by
    have h64 : (64 : Nat) = 32 + 32 := by norm_num
    rw [h64, ← List.drop_drop, hdrop32]
    exact drop_len_append _ _ hch
  refine ⟨?_, hlen, htake16, htake32, htakech, hdrop64⟩
  rw [deserializeAccount, if_pos hlen, htake16, htake32, htakech, hdrop64,
      leDecode_leBytes, leDecode_leBytes, leDecode_leBytes, hma, hml, hms]

/-- The boundary-value account used to witness the codec round-trip:
`amount = 2^127`, `locked = 2^128 - 1`, `storage_usage = 2^63 - 1`. -/
def boundaryAccount : Account :=
  ⟨2 ^ 127, 2 ^ 128 - 1, List.replicate 32 7, 2 ^ 63 - 1⟩

/-- Closed witness for C7 at a combination of boundary field values. -/
theorem accountCodec_roundtrip_witness :
    deserializeAccount (serializeAccount boundaryAccount) = some boundaryAccount ∧
    (serializeAccount boundaryAccount).length = 72 ∧
    (serializeAccount boundaryAccount).take 16 = leBytes 16 boundaryAccount.amount ∧
    ((serializeAccount boundaryAccount).drop 16).take 16 = leBytes 16 boundaryAccount.locked ∧
    ((serializeAccount boundaryAccount).drop 32).take 32 = boundaryAccount.code_hash ∧
    (serializeAccount boundaryAccount).drop 64 = leBytes 8 boundaryAccount.storage_usage :=
  accountCodec_roundtrip boundaryAccount (by simp [boundaryAccount])
    (by simp [boundaryAccount]) (by simp [boundaryAccount]) (by simp [boundaryAccount])

/-!
## `handleError` (src/json-rpc.js lines 75-114)

The JSON-RPC layer funnels every view-call failure through `handleError`.  A
response is modelled by its observable shape: a `viewCallError` body, a
`legacyError` body, a proxy to the upstream node, or `ctx.throw(status, text)`
— the last one surfaces the raw `error.toString()` text.  The regular
expression `TypeError.* is not a function` is modelled character-exactly: a
match is an occurrence of `TypeError` followed, in the same line (`.` does not
cross newlines), by ` is not a function`.  `JSON.stringify` of the panic
message is modelled as quoting; the escaping of embedded quotes inside the
message is not needed by any theorem below.
-/

/-- Does `pat` occur at the head of `hay`? -/
def charsStartsWith : List Char → List Char → Bool
  | _, [] => true
  | [], _ :: _ => false
  | a :: as, b :: bs => a == b && charsStartsWith as bs

/-- Does `pat` occur contiguously anywhere in `hay`? -/
def charsContains : List Char → List Char → Bool
  | [], pat => pat.isEmpty
  | a :: rest, pat => charsStartsWith (a :: rest) pat || charsContains rest pat

/-- Split a character sequence at newline characters. -/
def splitLines : List Char → List (List Char)
  | [] => [[]]
  | c :: rest =>
    match splitLines rest with
    | [] => [[c]]
    | l :: ls => if c == Char.ofNat 10 then [] :: l :: ls else (c :: l) :: ls

/-- One line matches `TypeError.* is not a function`: an occurrence of
`TypeError` followed, at least nine characters later in the same line, by
` is not a function`. -/
def lineMatchesTypeErrorRegex : List Char → Bool
  | [] => false
  | c :: rest =>
    (charsStartsWith (c :: rest) "TypeError".data &&
      charsContains (List.drop 8 rest) " is not a function".data) ||
      lineMatchesTypeErrorRegex rest

/-- The test `/TypeError.* is not a function/.test(message)`; the `.` of the
regular expression does not cross newlines, so the match is sought inside a
single line. -/
def typeErrorNotFunctionTest (s : String) : Bool :=
  (splitLines s.data).any lineMatchesTypeErrorRegex

/-- `JSON.stringify` on the plain panic messages that reach it: wrap in
double quotes. -/
def jsonStringify (s : String) : String := "\x22" ++ s ++ "\x22"

/-- A JavaScript error as `handleError` observes it: the `FastNEARError`
code (absent for plain errors), the `message`, and the `toString()` text. -/
structure JsErrObj where
  code : Option String
  message : String
  toStr : String
deriving DecidableEq

/-- The observable response of the JSON-RPC layer. -/
inductive RpcResponse where
  | viewCallErr (message : String)
  | legacyErr (code : Int) (data : String) (message : String)
  | proxied
  | thrown (status : Nat) (message : String)
deriving DecidableEq

/-- The `MethodNotFound` body text (src/json-rpc.js line 83). -/
def methodNotFoundMessage : String :=
  "wasm execution failed with error: FunctionCallError(MethodResolveError(MethodNotFound))"

/-- The `GuestPanic` body text (src/json-rpc.js line 96). -/
def guestPanicMessage (panicMsg : String) : String :=
  "wasm execution failed with error: FunctionCallError(HostError(GuestPanic \x7b panic_msg: "
    ++ jsonStringify panicMsg ++ "\x7d))"

/-- The `CodeDoesNotExist` body text (src/json-rpc.js line 102). -/
def codeNotFoundMessage (accountId : String) : String :=
  "wasm execution failed with error: FunctionCallError(CompilationError(CodeDoesNotExist \x7b account_id: AccountId(\x22"
    ++ accountId ++ "\x22) \x7d))"

/-- The legacy account-not-found body text (src/json-rpc.js line 108). -/
def accountNotFoundMessage (accountId : String) : String :=
  "account " ++ accountId ++ " does not exist while viewing"

/-- `handleError` (src/json-rpc.js lines 75-114): the TypeError regex is
checked first against `error.toString()`; then the switch on `error.code`
recognises `notImplemented` (proxy upstream), `panic` and `abort`,
`codeNotFound`, and `accountNotFound`; everything else falls through to
`ctx.throw(400, message)` with the raw error text. -/
def handleError (accountId : String) (e : JsErrObj) : RpcResponse :=
  let message := e.toStr
  if typeErrorNotFunctionTest message then
    RpcResponse.viewCallErr methodNotFoundMessage
  else
    match e.code with
    | some c =>
      if c = "notImplemented" then RpcResponse.proxied
      else if c = "panic" ∨ c = "abort" then
        RpcResponse.viewCallErr (guestPanicMessage e.message)
      else if c = "codeNotFound" then
        RpcResponse.viewCallErr (codeNotFoundMessage accountId)
      else if c = "accountNotFound" then
        RpcResponse.legacyErr (-32000) (accountNotFoundMessage accountId) "Server error"
      else RpcResponse.thrown 400 message
    | none => RpcResponse.thrown 400 message

/-- The error codes `handleError` turns into structured bodies. -/
def handledCodes : List String :=
  ["notImplemented", "panic", "abort", "codeNotFound", "accountNotFound"]

/-- Whether a response is the raw rethrow path. -/
def isThrown : RpcResponse → Bool
  | RpcResponse.thrown _ _ => true
  | _ => false

/-- Counterexample to C8 as stated: an error tagged `timeout` — one of the
spec's stable tags — reaches the fall-through `ctx.throw(400, message)` and is
returned carrying the raw `error.toString()` text, not a structured tagged
body. -/
theorem handleError_raw_text_cx :
    handleError "test.near"
        ⟨some "timeout", "store timed out", "Error: store timed out"⟩ =
      RpcResponse.thrown 400 "Error: store timed out" := by
  decide

/-- C8 (amended): only errors tagged `notImplemented`, `panic`, `abort`,
`codeNotFound` or `accountNotFound` — or whose text matches the
`TypeError.* is not a function` pattern — are turned into structured bodies;
every other error (among them `codeCompilation`, `timeout` and `transient`)
is rethrown as HTTP 400 carrying the raw `error.toString()` text. -/
theorem handleError_structured_iff (accountId : String) (e : JsErrObj) :
    ((∃ c ∈ handledCodes, e.code = some c) ∨ typeErrorNotFunctionTest e.toStr = true →
      isThrown (handleError accountId e) = false) ∧
    (¬ ((∃ c ∈ handledCodes, e.code = some c) ∨ typeErrorNotFunctionTest e.toStr = true) →
      handleError accountId e = RpcResponse.thrown 400 e.toStr) := by
  by_cases hre : typeErrorNotFunctionTest e.toStr = true
  · refine ⟨fun _ => ?_, fun hno => absurd (Or.inr hre) hno⟩
    simp [handleError, hre, isThrown]
  · cases hc : e.code with
    | none =>
      refine ⟨fun h => ?_, fun _ => ?_⟩
      · rcases h with ⟨c, _, hcode⟩ | hr
        · cases hcode
        · exact absurd hr hre
      · simp [handleError, hre, hc]
    | some c =>
      refine ⟨fun h => ?_, fun hno => ?_⟩
      · rcases h with ⟨c', hcmem, hcode⟩ | hr
        · injection hcode with hcc
          subst hcc
          simp only [handledCodes, List.mem_cons, List.mem_singleton] at hcmem
          rcases hcmem with rfl | rfl | rfl | rfl | rfl | hfalse
          · simp [handleError, hre, hc, isThrown]
          · simp [handleError, hre, hc, isThrown]
          · simp [handleError, hre, hc, isThrown]
          · simp [handleError, hre, hc, isThrown]
          · simp [handleError, hre, hc, isThrown]
          · simp at hfalse
        · exact absurd hr hre
      · have hne : ∀ c0 ∈ handledCodes, c ≠ c0 := by
          intro c0 hmem heq
          exact hno (Or.inl ⟨c0, hmem, by rw [heq]⟩)
        have h1 := hne "notImplemented" (by simp [handledCodes])
        have h2 := hne "panic" (by simp [handledCodes])
        have h3 := hne "abort" (by simp [handledCodes])
        have h4 := hne "codeNotFound" (by simp [handledCodes])
        have h5 := hne "accountNotFound" (by simp [handledCodes])
        simp [handleError, hre, hc, h1, h2, h3, h4, h5]

/-- Closed witness for the amended C8: an `abort` error is answered with the
structured `GuestPanic` body (not the raw-throw path), via the theorem. -/
theorem handleError_structured_iff_witness :
    isThrown (handleError "test.near" ⟨some "abort", "abort: oops", "Error: abort: oops"⟩) =
      false :=
  (handleError_structured_iff "test.near"
      ⟨some "abort", "abort: oops", "Error: abort: oops"⟩).1
    (Or.inl ⟨"abort", by simp [handledCodes], rfl⟩)

/-!
## `isJSON` (src/unnamed/part_000 lines 90-103)

`isJSON` decodes at most `MAX_WHITESPACE + 1` leading bytes, trims
whitespace, and — only when the trimmed slice starts with `[` (the condition
is the same disjunct written twice in the source) — attempts `JSON.parse` of
the whole buffer; a parse failure is the only way to return `false`.
`JSON.parse` enters the model as the oracle `parseOk`.
-/

/-- `MAX_WHITESPACE` (src/unnamed/part_000 line 92). -/
def MAX_WHITESPACE : Nat := 1000

/-- The whitespace bytes `String.prototype.trim` removes, for ASCII input:
tab, LF, VT, FF, CR and space. -/
def jsWhitespace (b : Nat) : Bool :=
  b == 9 || b == 10 || b == 11 || b == 12 || b == 13 || b == 32

/-- `trim` on a byte string: drop whitespace from both ends. -/
def trimBytes (bs : Bytes) : Bytes :=
  ((bs.dropWhile jsWhitespace).reverse.dropWhile jsWhitespace).reverse

/-- `isJSON` (src/unnamed/part_000 lines 90-103), with `JSON.parse` success
abstracted as the oracle `parseOk`.  The duplicated disjunct mirrors line 94
of the source. -/
def isJSON (parseOk : Bytes → Bool) (buffer : Bytes) : Bool :=
  let startSlice := trimBytes (buffer.take (MAX_WHITESPACE + 1))
  if startSlice.head? == some 91 || startSlice.head? == some 91 then
    parseOk buffer
  else true

/-- C9: `isJSON` attempts JSON parsing only when the trimmed leading slice of
the buffer starts with `[` (byte 91): every buffer whose trimmed leading
slice does not start with `[` yields `true` whatever the parse oracle says,
and `false` is returned exactly for a buffer whose trimmed leading slice
starts with `[` and whose full contents fail to parse. -/
theorem isJSON_spec (parseOk : Bytes → Bool) (buffer : Bytes) :
    ((trimBytes (buffer.take (MAX_WHITESPACE + 1))).head? ≠ some 91 →
      isJSON parseOk buffer = true) ∧
    (isJSON parseOk buffer = false ↔
      (trimBytes (buffer.take (MAX_WHITESPACE + 1))).head? = some 91 ∧
      parseOk buffer = false) := by
  by_cases hs : (trimBytes (buffer.take (MAX_WHITESPACE + 1))).head? = some 91
  · refine ⟨fun hne => absurd hs hne, ?_⟩
    simp [isJSON, hs]
  · have hb : ((trimBytes (buffer.take (MAX_WHITESPACE + 1))).head? == some 91) = false :=
      beq_eq_false_iff_ne.mpr hs
    refine ⟨fun _ => ?_, ?_⟩
    · simp [isJSON, hb]
    · simp [isJSON, hb, hs]

/-- Closed witness for C9: the buffer `hello` is not parseable JSON, its
trimmed head is not `[`, and `isJSON` accepts it even under an oracle that
rejects everything. -/
theorem isJSON_spec_witness :
    isJSON (fun _ => false) (asciiBytes "hello") = true :=
  (isJSON_spec (fun _ => false) (asciiBytes "hello")).1 (by decide)

/-!
## The coordinator `runContract` (src/unnamed/part_000 lines 23-74)

The resolution slice of `runContract` on a cold module cache:
`latest_block_height` is read with a plain `GET` (line 45), the code revision
with `ZREVRANGEBYSCORE code:{C} H -inf LIMIT 0 1` (lines 49-50), and the code
blob with `GET code:{C}:{R}` (line 61).  When the reverse range is empty the
destructured `contractBlockHash` is `undefined` and line 53
(`contractBlockHash.toString("hex")`) throws a `TypeError`; no
`FastNEARError` with code `codeNotFound` exists anywhere in this file.
Likewise a missing blob makes line 62 (`wasmData.length`) throw.  Failures
are modelled as the thrown JavaScript error, successes as the resolved
(height, revision hash, code blob) triple handed to compilation and the
worker pool.
-/

/-- A thrown JavaScript error: a `TypeError` from dereferencing
`undefined`/`null`, or a structured `FastNEARError` with a code. -/
inductive JsError where
  | typeError (message : String)
  | fastNear (code : String) (message : String)
deriving DecidableEq

/-- Is this error the structured `codeNotFound` error? -/
def isCodeNotFound : JsError → Bool
  | JsError.fastNear c _ => c == "codeNotFound"
  | JsError.typeError _ => false

/-- Is a finished computation a `codeNotFound` failure? -/
def resultIsCodeNotFound {α : Type} : Except JsError α → Bool
  | Except.error e => isCodeNotFound e
  | Except.ok _ => false

/-- ASCII-decimal value of a byte string (the `latest_block_height` value). -/
def parseDecimal (bs : Bytes) : Nat :=
  bs.foldl (fun acc b => acc * 10 + (b - 48)) 0

/-- The resolution slice of `runContract` (src/unnamed/part_000 lines 45-62)
on a cold module cache.  A missing `latest_block_height` key would crash the
`ZREVRANGEBYSCORE` call before the revision lookup; an empty reverse range
crashes at line 53; a missing code blob crashes at line 62. -/
def runContractResolve (store : RedisStore) (contractId : Bytes) :
    Except JsError (Nat × Bytes × Bytes) :=
  match redisGet store (asciiBytes "latest_block_height") with
  | none => Except.error (JsError.typeError "Invalid argument type")
  | some hBytes =>
    let latestBlockHeight := parseDecimal hBytes
    match getLatestContractBlockHash store contractId latestBlockHeight with
    | none =>
      Except.error (JsError.typeError
        "Cannot read properties of undefined (reading \x27toString\x27)")
    | some contractBlockHash =>
      match redisGet store (getContractCodeKey contractId contractBlockHash) with
      | none =>
        Except.error (JsError.typeError
          "Cannot read properties of null (reading \x27length\x27)")
      | some wasmData => Except.ok (latestBlockHeight, contractBlockHash, wasmData)

/-- Store for C1: `latest_block_height` is `100` and the contract
`no-code.test` has no code revision at any height. -/
def c1Store : RedisStore :=
  ⟨[(asciiBytes "latest_block_height", asciiBytes "100")], []⟩

/-- C1 evaluated at the failing input: with no code revision ≤ H the
coordinator does not fail with the structured `codeNotFound` error the spec
prescribes — it throws a `TypeError` while hex-rendering the `undefined`
revision hash (src/unnamed/part_000 line 53). -/
theorem runContract_missing_code_typeError :
    runContractResolve c1Store (asciiBytes "no-code.test") =
      Except.error (JsError.typeError
        "Cannot read properties of undefined (reading \x27toString\x27)") ∧
    resultIsCodeNotFound (runContractResolve c1Store (asciiBytes "no-code.test")) = false :=
  ⟨rfl, rfl⟩
